import Mathlib

/-!
Verification of the sequence-packing step of `pretraining-llms/Lesson_3.ipynb`
and of the environment-bootstrap cells shared by the lesson notebooks.

The packing pipeline in the notebook is:
  input_ids = np.concatenate(dataset["input_ids"])
  total_length = len(input_ids) - len(input_ids) % max_seq_length
  input_ids = input_ids[:total_length]
  input_ids_reshaped = input_ids.reshape(-1, max_seq_length).astype(np.int32)

Token ids are modelled as `Int` (Python integers), sequences as `List Int`.
Each numpy / Python operation that can raise is modelled as `Except`.
-/

/-- Semantics of numpy `astype(np.int32)` on an integer value: the value is
reduced modulo 2^32 into the signed 32-bit range `[-2^31, 2^31)`. -/
def toInt32 (x : Int) : Int := (x + 2 ^ 31) % 2 ^ 32 - 2 ^ 31

/-- Exceptions the packing pipeline can raise: `np.concatenate` on an empty
list raises ValueError; `len % 0` raises ZeroDivisionError; `reshape(-1, L)`
with a negative `L` raises ValueError; `reshape` of a size not divisible by
the row width raises ValueError. -/
inductive PackError
  | concatenateEmpty
  | zeroDivision
  | reshapeNegative
  | reshapeIndivisible
deriving DecidableEq, Repr

/-- Model of `np.concatenate(dataset["input_ids"])`: flattens the sequences
in order; raises ValueError when the collection is empty. -/
def npConcatenate (seqs : List (List Int)) : Except PackError (List Int) :=
  if seqs.isEmpty then Except.error PackError.concatenateEmpty
  else Except.ok seqs.flatten

/-- Model of the Python slice `t[:k]`: a nonnegative bound keeps the first
`k` elements (clamped to the length); a negative bound drops the last `|k|`
elements. -/
def pySliceTo (t : List Int) (k : Int) : List Int :=
  if k < 0 then t.take (t.length - (-k).toNat) else t.take k.toNat

/-- Model of `t.reshape(-1, L)` on a 1-D array: raises ValueError when
`L ≤ 0` or when the size is not divisible by `L`; otherwise row `i` holds
the elements at flat positions `[i*L, (i+1)*L)`. -/
def npReshape (t : List Int) (L : Int) : Except PackError (List (List Int)) :=
  if L ≤ 0 then Except.error PackError.reshapeNegative
  else if t.length % L.toNat ≠ 0 then Except.error PackError.reshapeIndivisible
  else Except.ok ((List.range (t.length / L.toNat)).map
    fun i => (t.drop (i * L.toNat)).take L.toNat)

/-- The processing steps of the packing pipeline, in notebook order. -/
inductive PackStep
  | concatenate
  | truncate
  | reshape
deriving DecidableEq, Repr

/-- The packing pipeline of Lesson 3, instrumented with the list of steps
that completed before the result (or the exception) was produced.
`total_length = len(t) - len(t) % L` uses Python `%`, which is floor mod
(`Int.fmod`) and raises ZeroDivisionError when `L = 0`. -/
def packRun (seqs : List (List Int)) (L : Int) :
    List PackStep × Except PackError (List (List Int)) :=
  match npConcatenate seqs with
  | Except.error e => ([], Except.error e)
  | Except.ok t =>
    if L = 0 then ([PackStep.concatenate], Except.error PackError.zeroDivision)
    else
      let total_length : Int := (t.length : Int) - Int.fmod (t.length : Int) L
      let truncated := pySliceTo t total_length
      match npReshape truncated L with
      | Except.error e =>
          ([PackStep.concatenate, PackStep.truncate], Except.error e)
      | Except.ok rows =>
          ([PackStep.concatenate, PackStep.truncate, PackStep.reshape],
            Except.ok (rows.map (List.map toInt32)))

/-- The packer's result: the value of `input_ids_reshaped`, or the exception
the pipeline raised. -/
def pack (seqs : List (List Int)) (L : Int) :
    Except PackError (List (List Int)) :=
  (packRun seqs L).2

/-- A chunk taken inside the truncated prefix agrees with the chunk taken
from the full list. -/
theorem chunk_of_take (t : List Int) (m tl i : Nat) (hm : 0 < m)
    (htl : tl = m * (t.length / m)) (hi : i < t.length / m) :
    ((t.take tl).drop (i * m)).take m = (t.drop (i * m)).take m := by
  rw [List.drop_take, List.take_take]
  have h1 : (i + 1) * m ≤ (t.length / m) * m :=
    Nat.mul_le_mul_right m (Nat.succ_le_of_lt hi)
  rw [Nat.succ_mul] at h1
  have h2 : tl = (t.length / m) * m := by rw [htl, Nat.mul_comm]
  have h3 : m ≤ tl - i * m := by omega
  rw [Nat.min_eq_left h3]

/-- Normal form of the instrumented pipeline on a non-empty input and a
positive row width: all three steps complete and the result is the list of
consecutive width-`L` chunks of the flattened input, truncated to a multiple
of `L`, with every element cast to int32. -/
theorem packRun_ok (seqs : List (List Int)) (L : Int) (hL : 0 < L)
    (hs : seqs ≠ []) :
    packRun seqs L =
      ([PackStep.concatenate, PackStep.truncate, PackStep.reshape],
        Except.ok ((List.range (seqs.flatten.length / L.toNat)).map
          fun i => ((seqs.flatten.drop (i * L.toNat)).take L.toNat).map
            toInt32)) := by
  have hconcat : npConcatenate seqs = Except.ok seqs.flatten := by
    unfold npConcatenate
    rw [if_neg (by simpa [List.isEmpty_iff] using hs)]
  have hm : 0 < L.toNat := by omega
  have hLm : L = (L.toNat : Int) := by omega
  have hL0 : ¬ L = 0 := by omega
  have hdm := Nat.div_add_mod seqs.flatten.length L.toNat
  have hmod_le : seqs.flatten.length % L.toNat ≤ seqs.flatten.length :=
    Nat.mod_le _ _
  have hfmod : Int.fmod (seqs.flatten.length : Int) L =
      ((seqs.flatten.length % L.toNat : Nat) : Int) := by
    rw [Int.fmod_eq_emod _ (le_of_lt hL)]
    conv_lhs => rw [hLm]
    rw [Int.natCast_mod]
  have htlInt : (seqs.flatten.length : Int) -
      Int.fmod (seqs.flatten.length : Int) L =
      ((seqs.flatten.length - seqs.flatten.length % L.toNat : Nat) : Int) := by
    rw [hfmod]; omega
  have htl : seqs.flatten.length - seqs.flatten.length % L.toNat =
      L.toNat * (seqs.flatten.length / L.toNat) := by omega
  have hslice : pySliceTo seqs.flatten
      ((seqs.flatten.length : Int) - Int.fmod (seqs.flatten.length : Int) L) =
      seqs.flatten.take (L.toNat * (seqs.flatten.length / L.toNat)) := by
    unfold pySliceTo
    rw [htlInt, if_neg (by omega), ← htl]
    congr 1
  have hlen_take : (seqs.flatten.take
      (L.toNat * (seqs.flatten.length / L.toNat))).length =
      L.toNat * (seqs.flatten.length / L.toNat) := by
    rw [List.length_take]
    exact Nat.min_eq_left (by omega)
  have hreshape : npReshape
      (seqs.flatten.take (L.toNat * (seqs.flatten.length / L.toNat))) L =
      Except.ok ((List.range (seqs.flatten.length / L.toNat)).map
        fun i => ((seqs.flatten.drop (i * L.toNat)).take L.toNat)) := by
    unfold npReshape
    rw [if_neg (by omega), hlen_take]
    rw [if_neg (by simp [Nat.mul_mod_right])]
    rw [Nat.mul_div_cancel_left _ hm]
    congr 1
    apply List.map_congr_left
    intro i hi
    exact chunk_of_take seqs.flatten L.toNat _ i hm rfl
      (List.mem_range.mp hi)
  unfold packRun
  rw [hconcat]
  simp only [if_neg hL0, hslice, hreshape, List.map_map]
  rfl

/-- Normal form of the packer's result on a non-empty input and a positive
row width. -/
theorem pack_eq_ok (seqs : List (List Int)) (L : Int) (hL : 0 < L)
    (hs : seqs ≠ []) :
    pack seqs L =
      Except.ok ((List.range (seqs.flatten.length / L.toNat)).map
        fun i => ((seqs.flatten.drop (i * L.toNat)).take L.toNat).map
          toInt32) := by
  unfold pack
  rw [packRun_ok seqs L hL hs]

/-- The packer only succeeds on a non-empty input collection. -/
theorem pack_ok_ne_nil (seqs : List (List Int)) (L : Int)
    (rows : List (List Int)) (h : pack seqs L = Except.ok rows) :
    seqs ≠ [] := by
  intro he
  subst he
  simp [pack, packRun, npConcatenate] at h

/-- On success the rows are exactly the width-`L` chunks of the flattened
input, cast to int32. -/
theorem pack_ok_elim (seqs : List (List Int)) (L : Int)
    (rows : List (List Int)) (hL : 0 < L) (h : pack seqs L = Except.ok rows) :
    rows = (List.range (seqs.flatten.length / L.toNat)).map
      fun i => ((seqs.flatten.drop (i * L.toNat)).take L.toNat).map toInt32 := by
  have hnorm := pack_eq_ok seqs L hL (pack_ok_ne_nil seqs L rows h)
  rw [h] at hnorm
  exact Except.ok.inj hnorm

/-- Each in-range chunk has exactly `m` elements. -/
theorem chunk_length (t : List Int) (m i : Nat) (hi : i < t.length / m) :
    ((t.drop (i * m)).take m).length = m := by
  have h1 : (i + 1) * m ≤ (t.length / m) * m :=
    Nat.mul_le_mul_right m (Nat.succ_le_of_lt hi)
  rw [Nat.succ_mul] at h1
  have h2 : (t.length / m) * m ≤ t.length := Nat.div_mul_le_self _ _
  rw [List.length_take, List.length_drop, Nat.min_eq_left (by omega)]

/-- The concatenation of the first `k` width-`m` chunks of a list recovers
its first `k * m` elements. -/
theorem flatten_chunks (m : Nat) :
    ∀ (k : Nat) (t : List Int), k * m ≤ t.length →
      ((List.range k).map fun i => (t.drop (i * m)).take m).flatten =
        t.take (k * m) := by
  intro k
  induction k with
  | zero => intro t ht; simp
  | succ k ih =>
    intro t ht
    rw [List.range_succ_eq_map, List.map_cons, List.map_map,
      List.flatten_cons]
    have hstep : ((List.range k).map
        ((fun i => (t.drop (i * m)).take m) ∘ Nat.succ)).flatten =
        ((List.range k).map fun i => ((t.drop m).drop (i * m)).take m).flatten := by
      congr 1
      apply List.map_congr_left
      intro i _
      simp only [Function.comp]
      have hidx : Nat.succ i * m = m + i * m := by rw [Nat.succ_mul]; omega
      rw [List.drop_drop, hidx]
    have hexp : (k + 1) * m = k * m + m := by ring
    rw [hstep, ih (t.drop m) (by rw [List.length_drop]; omega)]
    rw [hexp, Nat.add_comm (k * m) m, List.take_add]
    simp

/-- The int32 cast is the identity on values inside the signed 32-bit
range. -/
theorem toInt32_eq_self (x : Int) (h1 : -2 ^ 31 ≤ x) (h2 : x < 2 ^ 31) :
    toInt32 x = x := by
  unfold toInt32
  omega

/-- The int32 cast preserves the value modulo `2^32`. -/
theorem toInt32_sub_emod (x : Int) : (toInt32 x - x) % 2 ^ 32 = 0 := by
  unfold toInt32
  omega

/-- Casting a list whose members are all inside the signed 32-bit range is
the identity. -/
theorem map_toInt32_id (t : List Int)
    (hr : ∀ x ∈ t, -2 ^ 31 ≤ x ∧ x < 2 ^ 31) : t.map toInt32 = t := by
  have heq : t.map toInt32 = t.map id :=
    List.map_congr_left fun x hx =>
      toInt32_eq_self x (hr x hx).1 (hr x hx).2
  rw [heq, List.map_id]

/-- Flattening the packer's rows gives the int32 cast of the flattened
input truncated to the largest multiple of `L`. -/
theorem pack_flatten (seqs : List (List Int)) (L : Int)
    (rows : List (List Int)) (hL : 0 < L) (h : pack seqs L = Except.ok rows) :
    rows.flatten = (seqs.flatten.take
      ((seqs.flatten.length / L.toNat) * L.toNat)).map toInt32 := by
  rw [pack_ok_elim seqs L rows hL h]
  have hsplit : (List.range (seqs.flatten.length / L.toNat)).map
      (fun i => ((seqs.flatten.drop (i * L.toNat)).take L.toNat).map toInt32)
      = ((List.range (seqs.flatten.length / L.toNat)).map
        fun i => (seqs.flatten.drop (i * L.toNat)).take L.toNat).map
          (List.map toInt32) := by
    rw [List.map_map]
    rfl
  rw [hsplit, ← List.map_flatten,
    flatten_chunks L.toNat (seqs.flatten.length / L.toNat) seqs.flatten
      (Nat.div_mul_le_self _ _)]

/-!
Environment bootstrap of Lesson 1 and Lesson 6: `setup_environment` and the
run-mode selection cell. External state probed by the function (current
directory, whether the drive mount succeeds, whether `nvidia-smi` runs) is
modelled as an explicit environment record.
-/

/-- External state observed by `setup_environment`: the current working
directory and its basename (`os.getcwd`, `os.path.basename`), the result of
`os.path.ismount('/content/drive')` after `drive.mount`, and whether the
`nvidia-smi` subprocess succeeds. -/
structure Env where
  cwd : String
  cwdBasename : String
  driveMounted : Bool
  gpuProbeOk : Bool

/-- Exception `setup_environment` can raise on the local branch: the
`assert` comparing the basename of the working directory with
`curr_proj_folder`. -/
inductive SetupError
  | assertionError
deriving DecidableEq, Repr

/-- Model of `setup_environment`: on the remote branch it mounts the drive,
sets `mount_success` from the mount check and returns the drive path; on
the local branch it asserts the working directory's basename matches
`curr_proj_folder` and returns the working directory, leaving
`mount_success` at its initial `False`. The GPU probe only prints and
rebinds the local `use_gpu`, so it does not affect the returned pair. -/
def setup_environment (env : Env) (curr_proj_folder : String)
    (google_drive_base_folder : String) (run_remote : Bool)
    (use_gpu : Bool) : Except SetupError (String × Bool) :=
  let mount_success := false
  if run_remote then
    let mount_success := env.driveMounted
    let mount_path := "/content/drive/MyDrive"
    let path_to_scripts :=
      mount_path ++ "/" ++ google_drive_base_folder ++ "/" ++ curr_proj_folder
    Except.ok (path_to_scripts, mount_success)
  else
    let path_to_scripts := env.cwd
    if env.cwdBasename = curr_proj_folder then
      Except.ok (path_to_scripts, mount_success)
    else
      Except.error SetupError.assertionError

/-- Model of the run-mode selection cell: returns
`(run_local, run_local_usingColab)` as assigned by the `if run_remote:`
cell. -/
def runModeFlags (run_remote : Bool) : Bool × Bool :=
  if run_remote then
    (false, false)
  else
    let run_local := false
    (run_local, !run_local)

/-- C1: for every input collection and every positive integer `L`, whenever
the packer produces rows, every row has exactly `L` elements and the total
element count across all rows equals
`floor(total_input_tokens / L) * L`, where `total_input_tokens` is the sum
of the input sequence lengths. -/
theorem C1_rows_fixed_width (seqs : List (List Int)) (L : Int) (hL : 0 < L)
    (rows : List (List Int)) (h : pack seqs L = Except.ok rows) :
    (∀ r ∈ rows, r.length = L.toNat) ∧
    (rows.map List.length).sum =
      ((seqs.map List.length).sum / L.toNat) * L.toNat := by
  have hrows := pack_ok_elim seqs L rows hL h
  subst hrows
  constructor
  · intro r hr
    rw [List.mem_map] at hr
    obtain ⟨i, hi, hrfl⟩ := hr
    rw [← hrfl, List.length_map]
    exact chunk_length seqs.flatten L.toNat i (List.mem_range.mp hi)
  · rw [List.map_map]
    have hconst : ∀ i ∈ List.range (seqs.flatten.length / L.toNat),
        (List.length ∘ fun i =>
          ((seqs.flatten.drop (i * L.toNat)).take L.toNat).map toInt32) i =
          L.toNat := by
      intro i hi
      simp only [Function.comp]
      rw [List.length_map]
      exact chunk_length seqs.flatten L.toNat i (List.mem_range.mp hi)
    rw [List.map_congr_left hconst, List.map_const', List.length_range,
      List.sum_replicate, smul_eq_mul, List.length_flatten]

/-- Witness for C1 at `seqs = [[1,2],[3]]`, `L = 2`. -/
theorem C1_rows_fixed_width_witness :
    (∀ r ∈ [[(1 : Int), 2]], r.length = (2 : Int).toNat) ∧
    ([[(1 : Int), 2]].map List.length).sum =
      (([[(1 : Int), 2], [3]].map List.length).sum / (2 : Int).toNat) *
        (2 : Int).toNat :=
  C1_rows_fixed_width [[1, 2], [3]] 2 (by decide) [[1, 2]] rfl

/-- C2 counterexample: the claim says every output row contains exactly the
elements of the corresponding slice of the flattened concatenation, for
every input. For input `[[2^31]]` and `L = 1` the slice `[0, 1)` of the
concatenation is `[2^31]`, but the packer's int32 cast makes row 0 equal
`[-2^31]`, so the claim fails at this input. -/
theorem C2_counterexample_cast_changes_row :
    pack [[2 ^ 31]] 1 = Except.ok [[-2 ^ 31]] ∧
    pack [[2 ^ 31]] 1 ≠ Except.ok [[(2 : Int) ^ 31]] := by
  refine ⟨rfl, fun hcontra => ?_⟩
  rw [show pack [[2 ^ 31]] 1 = Except.ok [[-2 ^ 31]] from rfl] at hcontra
  exact absurd (Except.ok.inj hcontra) (by decide)

/-- C2 amended: on success, output row `i` holds exactly the int32 casts of
the elements at positions `[i*L, (i+1)*L)` of the flattened concatenation
of the input sequences in collection order; when every token id lies in
`[-2^31, 2^31)` the cast is the identity and row `i` holds exactly those
elements. -/
theorem C2_rows_are_cast_chunks (seqs : List (List Int)) (L : Int)
    (hL : 0 < L) (rows : List (List Int)) (h : pack seqs L = Except.ok rows) :
    ∀ i : Nat, i < rows.length →
      rows[i]? = some
        (((seqs.flatten.drop (i * L.toNat)).take L.toNat).map toInt32) ∧
      ((∀ x ∈ seqs.flatten, -2 ^ 31 ≤ x ∧ x < 2 ^ 31) →
        rows[i]? = some ((seqs.flatten.drop (i * L.toNat)).take L.toNat)) := by
  have hrows := pack_ok_elim seqs L rows hL h
  subst hrows
  intro i hi
  rw [List.length_map, List.length_range] at hi
  have hget : ((List.range (seqs.flatten.length / L.toNat)).map
      fun i => ((seqs.flatten.drop (i * L.toNat)).take L.toNat).map
        toInt32)[i]? = some
        (((seqs.flatten.drop (i * L.toNat)).take L.toNat).map toInt32) := by
    rw [List.getElem?_map, List.getElem?_range hi, Option.map_some']
  refine ⟨hget, fun hr => ?_⟩
  rw [hget]
  congr 1
  apply map_toInt32_id
  intro x hx
  exact hr x (List.drop_subset _ _ (List.take_subset _ _ hx))

/-- Witness for C2 amended at `seqs = [[1,2],[3]]`, `L = 2`, `i = 0`. -/
theorem C2_rows_are_cast_chunks_witness :
    [[(1 : Int), 2]][0]? = some
      ((([[(1 : Int), 2], [3]].flatten.drop (0 * (2 : Int).toNat)).take
        (2 : Int).toNat).map toInt32) :=
  (C2_rows_are_cast_chunks [[1, 2], [3]] 2 (by decide) [[1, 2]] rfl 0
    (by decide)).1

/-- C3 counterexample: the claim says that for `L ≤ 0` the failure is
surfaced before any processing begins. For input `[[1]]` with `L = 0` the
concatenation step completes before the ZeroDivisionError of
`len % max_seq_length` is raised, and with `L = -1` both concatenation and
truncation complete before the reshape raises ValueError, so no failure
precedes processing. -/
theorem C3_counterexample_processing_precedes_failure :
    (packRun [[1]] 0).1 = [PackStep.concatenate] ∧
    (packRun [[1]] 0).2 = Except.error PackError.zeroDivision ∧
    (packRun [[1]] (-1)).1 = [PackStep.concatenate, PackStep.truncate] ∧
    (packRun [[1]] (-1)).2 = Except.error PackError.reshapeNegative :=
  ⟨rfl, rfl, rfl, rfl⟩

/-- C3 amended: for every non-empty input and every `L ≤ 0`, the packing
operation raises an exception and produces no output rows; the failure
surfaces during processing, after the concatenation step has completed
(for `L = 0` at the total-length computation, for `L < 0` at the reshape
step after truncation), not before processing begins. -/
theorem C3_fails_after_concatenation (seqs : List (List Int))
    (hs : seqs ≠ []) (L : Int) (hL : L ≤ 0) :
    (∃ e, pack seqs L = Except.error e) ∧
    PackStep.concatenate ∈ (packRun seqs L).1 := by
  have hconcat : npConcatenate seqs = Except.ok seqs.flatten := by
    unfold npConcatenate
    rw [if_neg (by simpa [List.isEmpty_iff] using hs)]
  by_cases h0 : L = 0
  · have hrun : packRun seqs L =
        ([PackStep.concatenate], Except.error PackError.zeroDivision) := by
      unfold packRun
      rw [hconcat]
      simp only [if_pos h0]
    exact ⟨⟨PackError.zeroDivision, by rw [pack, hrun]⟩, by rw [hrun]; simp⟩
  · have hrun : packRun seqs L =
        ([PackStep.concatenate, PackStep.truncate],
          Except.error PackError.reshapeNegative) := by
      unfold packRun
      rw [hconcat]
      simp only [if_neg h0]
      have hresh : npReshape
          (pySliceTo seqs.flatten ((seqs.flatten.length : Int) -
            Int.fmod (seqs.flatten.length : Int) L)) L =
          Except.error PackError.reshapeNegative := by
        unfold npReshape
        rw [if_pos hL]
      simp only [hresh]
    exact ⟨⟨PackError.reshapeNegative, by rw [pack, hrun]⟩,
      by rw [hrun]; simp⟩

/-- Witness for C3 amended at `seqs = [[1]]`, `L = -1`. -/
theorem C3_fails_after_concatenation_witness :
    (∃ e, pack [[1]] (-1) = Except.error e) ∧
    PackStep.concatenate ∈ (packRun [[1]] (-1)).1 :=
  C3_fails_after_concatenation [[1]] (by decide) (-1) (by decide)

/-- C4 counterexample: the claim says an empty input collection is a valid
outcome producing an empty collection of rows, but `np.concatenate` raises
ValueError on an empty list, so the packer fails on the empty collection. -/
theorem C4_counterexample_empty_collection_errors :
    pack ([] : List (List Int)) 1 =
      Except.error PackError.concatenateEmpty := rfl

/-- C4 amended: for every positive integer `L`, a non-empty input
collection whose sequences are all empty, and more generally any non-empty
collection with fewer than `L` total tokens, makes the packer complete
successfully with an empty collection of rows; an empty input collection,
however, makes the packer fail with the ValueError that `np.concatenate`
raises on an empty list. -/
theorem C4_empty_and_short_inputs (seqs : List (List Int)) (L : Int)
    (hL : 0 < L) :
    (seqs = [] →
      pack seqs L = Except.error PackError.concatenateEmpty) ∧
    (seqs ≠ [] → seqs.flatten.length < L.toNat →
      pack seqs L = Except.ok []) := by
  constructor
  · intro he
    subst he
    rfl
  · intro hs hlt
    rw [pack_eq_ok seqs L hL hs, Nat.div_eq_of_lt hlt]
    rfl

/-- Witness for C4 amended at `seqs = [[1]]` (and `seqs = []`), `L = 2`. -/
theorem C4_empty_and_short_inputs_witness :
    pack ([[1]] : List (List Int)) 2 = Except.ok [] :=
  (C4_empty_and_short_inputs [[1]] 2 (by decide)).2 (by decide) (by decide)

/-- C5 counterexample: the claim says no element of the concatenation other
than the trailing `total mod L` elements is dropped. For input `[[2^31]]`
and `L = 1` the remainder is empty, so the claim requires the element
`2^31` at position 0 to appear in a row; but the int32 cast turns it into
`-2^31` and `2^31` appears in no row. -/
theorem C5_counterexample_nontrailing_element_lost :
    pack [[2 ^ 31]] 1 = Except.ok [[-2 ^ 31]] ∧
    (2 : Int) ^ 31 ∉ ([[-2 ^ 31]] : List (List Int)).flatten :=
  ⟨rfl, by decide⟩

/-- C5 amended: for every input and positive `L`, on success the
concatenation of all output rows is exactly the int32 cast of the first
`floor(total / L) * L` elements of the flattened input, so the trailing
`total mod L` elements contribute to no output row and no earlier position
is dropped (its int32 cast appears at the same position; when every token
id lies in `[-2^31, 2^31)` the elements themselves appear unchanged). The
packer is a pure function of its arguments, so the remainder is not
carried to any later invocation. -/
theorem C5_truncation_drops_only_tail (seqs : List (List Int)) (L : Int)
    (hL : 0 < L) (rows : List (List Int))
    (h : pack seqs L = Except.ok rows) :
    rows.flatten = (seqs.flatten.take
      ((seqs.flatten.length / L.toNat) * L.toNat)).map toInt32 ∧
    rows.flatten.length =
      (seqs.flatten.length / L.toNat) * L.toNat ∧
    ((∀ x ∈ seqs.flatten, -2 ^ 31 ≤ x ∧ x < 2 ^ 31) →
      rows.flatten = seqs.flatten.take
        ((seqs.flatten.length / L.toNat) * L.toNat)) := by
  have hjoin := pack_flatten seqs L rows hL h
  refine ⟨hjoin, ?_, fun hr => ?_⟩
  · rw [hjoin, List.length_map, List.length_take]
    exact Nat.min_eq_left (Nat.div_mul_le_self _ _)
  · rw [hjoin]
    apply map_toInt32_id
    intro x hx
    exact hr x (List.take_subset _ _ hx)

/-- Witness for C5 amended at `seqs = [[1,2],[3]]`, `L = 2`. -/
theorem C5_truncation_drops_only_tail_witness :
    [[(1 : Int), 2]].flatten = ([[(1 : Int), 2], [3]].flatten.take
      (([[(1 : Int), 2], [3]].flatten.length / (2 : Int).toNat) *
        (2 : Int).toNat)).map toInt32 :=
  (C5_truncation_drops_only_tail [[1, 2], [3]] 2 (by decide) [[1, 2]]
    rfl).1

/-- C6: the packer is deterministic and pure: it is modelled as a function
of the input collection and `L` alone (no other state appears), so two
runs on the same input with the same `L` yield identical output. -/
theorem C6_deterministic (seqs seqs2 : List (List Int)) (L L2 : Int)
    (hseq : seqs = seqs2) (hwidth : L = L2) :
    pack seqs L = pack seqs2 L2 := by
  rw [hseq, hwidth]

/-- Witness for C6 at `seqs = [[1,2,3]]`, `L = 2`. -/
theorem C6_deterministic_witness :
    pack [[1, 2, 3]] 2 = pack [[1, 2, 3]] 2 :=
  C6_deterministic [[1, 2, 3]] [[1, 2, 3]] 2 2 rfl rfl

/-- C7: on input `[[1,2,3],[4,5],[6,7,8,9,10]]` with `L = 4` the packer
produces exactly the rows `[[1,2,3,4],[5,6,7,8]]`, and the tokens `9` and
`10` appear in no row. -/
theorem C7_concrete_scenario :
    pack [[1, 2, 3], [4, 5], [6, 7, 8, 9, 10]] 4 =
      Except.ok [[1, 2, 3, 4], [5, 6, 7, 8]] ∧
    (9 : Int) ∉ ([[1, 2, 3, 4], [5, 6, 7, 8]] : List (List Int)).flatten ∧
    (10 : Int) ∉ ([[1, 2, 3, 4], [5, 6, 7, 8]] : List (List Int)).flatten :=
  ⟨rfl, by decide, by decide⟩

/-- C8: the packer casts every output element to a 32-bit signed integer:
the flattened output is the `toInt32` image of the truncated flattened
input; the cast is the identity on `[-2^31, 2^31)`, so inputs inside that
range pass through unchanged, and it preserves values modulo `2^32`; for
the input `[[2^31]]` with `L = 1`, whose token id lies outside the range,
the output element `-2^31` differs from the input element `2^31`. -/
theorem C8_int32_cast :
    (∀ (seqs : List (List Int)) (L : Int) (rows : List (List Int)),
      0 < L → pack seqs L = Except.ok rows →
      rows.flatten = (seqs.flatten.take
        ((seqs.flatten.length / L.toNat) * L.toNat)).map toInt32) ∧
    (∀ x : Int, -2 ^ 31 ≤ x → x < 2 ^ 31 → toInt32 x = x) ∧
    (∀ x : Int, (toInt32 x - x) % 2 ^ 32 = 0) ∧
    (∀ (seqs : List (List Int)) (L : Int) (rows : List (List Int)),
      0 < L → pack seqs L = Except.ok rows →
      (∀ x ∈ seqs.flatten, -2 ^ 31 ≤ x ∧ x < 2 ^ 31) →
      rows.flatten = seqs.flatten.take
        ((seqs.flatten.length / L.toNat) * L.toNat)) ∧
    (pack [[2 ^ 31]] 1 = Except.ok [[-2 ^ 31]] ∧
      (-2 ^ 31 : Int) ≠ 2 ^ 31) := by
  refine ⟨fun seqs L rows hL h => pack_flatten seqs L rows hL h,
    toInt32_eq_self, toInt32_sub_emod,
    fun seqs L rows hL h hr => ?_, rfl, by decide⟩
  rw [pack_flatten seqs L rows hL h]
  apply map_toInt32_id
  intro x hx
  exact hr x (List.take_subset _ _ hx)

/-- Witness for C8 at `x = 7` and at `seqs = [[1,2]]`, `L = 1`. -/
theorem C8_int32_cast_witness :
    toInt32 7 = 7 ∧
    [[(1 : Int)], [2]].flatten = ([[(1 : Int), 2]].flatten.take
      (([[(1 : Int), 2]].flatten.length / (1 : Int).toNat) *
        (1 : Int).toNat)).map toInt32 :=
  ⟨C8_int32_cast.2.1 7 (by decide) (by decide),
    C8_int32_cast.1 [[1, 2]] 1 [[1], [2]] (by decide) rfl⟩

/-- C9: for every call of `setup_environment` with `run_remote = False`
that returns, the returned `mount_success` component is `False`, whatever
the environment and the other arguments: only the remote branch can set it
to `True` after a successful drive mount. -/
theorem C9_local_mount_false (env : Env) (cpf gdbf : String)
    (gpu : Bool) (p : String) (ms : Bool)
    (h : setup_environment env cpf gdbf false gpu =
      Except.ok (p, ms)) : ms = false := by
  unfold setup_environment at h
  simp only [if_neg Bool.false_ne_true] at h
  by_cases hb : env.cwdBasename = cpf
  · rw [if_pos hb] at h
    have hpair := Except.ok.inj h
    injection hpair with h1 h2
    exact h2.symm
  · rw [if_neg hb] at h
    exact absurd h (by simp)

/-- Witness for C9 with a concrete environment whose working directory
basename matches the project folder. -/
theorem C9_local_mount_false_witness : false = false :=
  C9_local_mount_false ⟨"/w/p", "p", false, true⟩ "p" "Colab Notebooks"
    true "/w/p" false rfl

/-- C10: after the run-mode selection cell, `run_local` is `False` for both
values of `run_remote` and `run_local_usingColab` equals
`not run_remote`; hence the configuration `run_remote = False`,
`run_local = True`, `run_local_usingColab = False` listed in the
notebook's scenario list is unreachable. -/
theorem C10_run_mode_flags (run_remote : Bool) :
    (runModeFlags run_remote).1 = false ∧
    (runModeFlags run_remote).2 = !run_remote ∧
    ¬(run_remote = false ∧ (runModeFlags run_remote).1 = true ∧
      (runModeFlags run_remote).2 = false) := by
  cases run_remote <;> exact ⟨rfl, rfl, by decide⟩

/-- Witness for C10 at `run_remote = false`. -/
theorem C10_run_mode_flags_witness :
    (runModeFlags false).1 = false ∧
    (runModeFlags false).2 = !false ∧
    ¬(false = false ∧ (runModeFlags false).1 = true ∧
      (runModeFlags false).2 = false) :=
  C10_run_mode_flags false
